import Mathlib

/-!
Verification of the token-authenticated workout service (`main.py`).

The development shallowly embeds the service's authentication core and its
workout-store handlers:

* the static credential store `users_db`;
* the password verifier is an abstract boolean function (the bcrypt
  computation lives in an external library, so every statement quantifies
  over it);
* the JWT codec (`python-jose`) is external to the repository, so it is
  modelled from the spec: a token is a signed claim set, the HMAC is an
  abstract function of algorithm, secret and claims, and `jwtDecode`
  verifies the algorithm, the signature, and that the current time is not
  at or past the embedded expiry;
* HTTP failures are explicit `HTTPException` values and handlers return
  `Except HTTPException α`;
* time is measured in seconds (`Nat`), matching the numeric `exp` claim.
-/

namespace PWLab

/-- A stored credential record: username, bcrypt hash, permission list. -/
structure UserInDB where
  username : String
  hashed_password : String
  permissions : List String
deriving DecidableEq

/-- The static credential store of `main.py` (`users_db`): "admin" has
READ/WRITE/DELETE, "user" has READ, both with the bcrypt hash of "secret". -/
def users_db (username : String) : Option UserInDB :=
  if username = "admin" then
    some ⟨"admin", "$2b$12$EixZaYVK1fsbw1ZfbX3OXePaWxn96p36WQoeG6Lruj3vjPGga31lW",
          ["READ", "WRITE", "DELETE"]⟩
  else if username = "user" then
    some ⟨"user", "$2b$12$EixZaYVK1fsbw1ZfbX3OXePaWxn96p36WQoeG6Lruj3vjPGga31lW",
          ["READ"]⟩
  else
    none

/-- Lookup in the credential store (`get_user`). -/
def get_user (username : String) : Option UserInDB :=
  users_db username

/-- Authentication (`authenticate_user`): look the user up and verify the
password against the stored hash; `vp` is the abstract bcrypt verifier
(`verify_password`).  Returns `none` both for an unknown user and for a
failed verification, exactly as the code returns `False` in both cases. -/
def authenticate_user (vp : String → String → Bool) (username password : String) :
    Option UserInDB :=
  match get_user username with
  | none => none
  | some user => if vp password user.hashed_password then some user else none

/-- The signing algorithm constant (`ALGORITHM = "HS256"`). -/
def ALGORITHM : String := "HS256"

/-- The login TTL constant in minutes (`ACCESS_TOKEN_EXPIRE_MINUTES = 5`). -/
def ACCESS_TOKEN_EXPIRE_MINUTES : Nat := 5

/-- A JWT claim set: subject, embedded permission list, numeric expiry. -/
structure Claims where
  sub : Option String
  permissions : List String
  exp : Nat
deriving DecidableEq

/-- An abstract HMAC: algorithm name, secret, claims to signature. -/
abbrev MacFun := String → Nat → Claims → Nat

/-- Modelled from the spec: the three-part signed token produced by the
external JWT library — a header naming the algorithm, the claims payload,
and a signature over header+payload. -/
structure SignedToken where
  alg : String
  claims : Claims
  sig : Nat
deriving DecidableEq

/-- Modelled from the spec: the ways `decode` can fail — malformed /
wrong-algorithm header, signature mismatch, or expiry reached. -/
inductive DecodeError where
  | badAlg : DecodeError
  | badSig : DecodeError
  | expired : DecodeError
deriving DecidableEq

/-- Modelled from the spec: `encode(claims, secret, algorithm)` signs the
claims with the shared secret under the given algorithm. -/
def jwtEncode (mac : MacFun) (alg : String) (secret : Nat) (c : Claims) : SignedToken :=
  ⟨alg, c, mac alg secret c⟩

/-- Modelled from the spec: `decode(token, secret, algorithm)` checks the
algorithm header, verifies the signature over header+payload with the
shared secret, and fails if the current time is at or past the embedded
expiry. -/
def jwtDecode (mac : MacFun) (alg : String) (secret : Nat) (now : Nat)
    (t : SignedToken) : Except DecodeError Claims :=
  if t.alg ≠ alg then .error .badAlg
  else if t.sig ≠ mac t.alg secret t.claims then .error .badSig
  else if t.claims.exp ≤ now then .error .expired
  else .ok t.claims

/-- The claim data passed to `create_access_token` before `exp` is added
(`data = dict with sub and permissions`). -/
structure TokenInputData where
  sub : Option String
  permissions : List String
deriving DecidableEq

/-- Python truthiness of `expires_delta or timedelta(minutes=15)`: a
missing value and the zero timedelta both fall back to the default. -/
def pyOrDelta (d : Option Nat) (dflt : Nat) : Nat :=
  match d with
  | none => dflt
  | some x => if x = 0 then dflt else x

/-- Token issuance (`create_access_token`): copy the claim data, set
`exp = now + (expires_delta or timedelta(minutes=15))`, and sign with the
process secret under HS256. -/
def create_access_token (mac : MacFun) (secret : Nat) (data : TokenInputData)
    (expires_delta : Option Nat) (now : Nat) : SignedToken :=
  let expire := now + pyOrDelta expires_delta (15 * 60)
  jwtEncode mac ALGORITHM secret ⟨data.sub, data.permissions, expire⟩

/-- An HTTP error outcome: status code, detail message, response headers. -/
structure HTTPException where
  status_code : Nat
  detail : String
  headers : List (String × String)
deriving DecidableEq

/-- The 401 raised by the access gate (`credentials_exception`). -/
def credentials_exception : HTTPException :=
  ⟨401, "Could not validate credentials", [("WWW-Authenticate", "Bearer")]⟩

/-- The 401 raised at login for bad credentials. -/
def login_exception : HTTPException :=
  ⟨401, "Incorrect username or password", [("WWW-Authenticate", "Bearer")]⟩

/-- The 403 raised by `check_permission`, naming the missing permission. -/
def missing_permission_exception (permission : String) : HTTPException :=
  ⟨403, "Missing " ++ permission ++ " permission", []⟩

/-- The access gate's identity step (`get_current_user`): decode the token
(any decode failure maps to `credentials_exception`), extract the subject
(missing subject maps to `credentials_exception`), and re-resolve the user
in the credential store (an unresolvable subject maps to
`credentials_exception`).  On success it returns the *store's* record. -/
def get_current_user (mac : MacFun) (secret : Nat) (now : Nat) (t : SignedToken) :
    Except HTTPException UserInDB :=
  match jwtDecode mac ALGORITHM secret now t with
  | .error _ => .error credentials_exception
  | .ok payload =>
    match payload.sub with
    | none => .error credentials_exception
    | some username =>
      match get_user username with
      | none => .error credentials_exception
      | some user => .ok user

/-- The access gate's permission step (`check_permission`): membership test
against the resolved user's permission list; absence is a 403 naming the
missing permission. -/
def check_permission (permission : String) (user : UserInDB) :
    Except HTTPException Unit :=
  if permission ∈ user.permissions then .ok ()
  else .error (missing_permission_exception permission)

/-- The full access gate on a protected request: resolve the identity, then
check the operation's required permission. -/
def authorize (mac : MacFun) (secret : Nat) (now : Nat) (t : SignedToken)
    (required_permission : String) : Except HTTPException UserInDB :=
  match get_current_user mac secret now t with
  | .error e => .error e
  | .ok user =>
    match check_permission required_permission user with
    | .error e => .error e
    | .ok _ => .ok user

/-- The login response body (`Token`): the signed token plus the scheme. -/
structure TokenResponse where
  access_token : SignedToken
  token_type : String
deriving DecidableEq

/-- The login endpoint (`login_for_access_token`): authenticate, reject
unknown-user and wrong-password identically with `login_exception`, and on
success issue a token embedding the user's stored permissions with the
explicitly passed 5-minute TTL. -/
def login_for_access_token (vp : String → String → Bool) (mac : MacFun)
    (secret : Nat) (now : Nat) (username password : String) :
    Except HTTPException TokenResponse :=
  match authenticate_user vp username password with
  | none => .error login_exception
  | some user =>
    let access_token := create_access_token mac secret
      ⟨some user.username, user.permissions⟩
      (some (ACCESS_TOKEN_EXPIRE_MINUTES * 60)) now
    .ok ⟨access_token, "bearer"⟩

/-! ## Workout store -/

/-- A set of an exercise (`ExerciseSet`): reps and weight.  Sets lists stay
empty in this program (no endpoint appends to them); the weight is modelled
as a rational. -/
structure ExerciseSet where
  reps : Int
  weight : Rat
deriving DecidableEq

/-- The request body for adding an exercise (`Exercise`). -/
structure Exercise where
  name : String
  category : String
deriving DecidableEq

/-- A stored exercise dict: the request fields plus the generated `id` and
the empty `sets` list. -/
structure StoredExercise where
  name : String
  category : String
  id : String
  sets : List ExerciseSet
deriving DecidableEq

/-- The request body for creating or updating a workout (`WorkoutCreate`). -/
structure WorkoutCreate where
  name : String
  date : String
  startTime : String
  endTime : String
  rating : Option Int
  comment : Option String
deriving DecidableEq

/-- A stored workout dict: the base fields plus the generated `id` and the
`exercises` list. -/
structure StoredWorkout where
  name : String
  date : String
  startTime : String
  endTime : String
  rating : Option Int
  comment : Option String
  id : String
  exercises : List StoredExercise
deriving DecidableEq

/-- The workout id string `f"\x7blen(workouts_db)\x7d_\x7btoken_urlsafe(4)\x7d"`:
decimal length, underscore, random suffix `r`. -/
def mkWorkoutId (n : Nat) (r : String) : String :=
  Nat.repr n ++ "_" ++ r

/-- The exercise id string `str(len(exercises)) + token_urlsafe(4)`:
decimal length directly followed by the random suffix `r`. -/
def mkExerciseId (n : Nat) (r : String) : String :=
  Nat.repr n ++ r

/-- The store mutation of `create_workout`: build the dict from the request
body, attach a fresh id from the current length and the random suffix `r`,
start with no exercises, and append. -/
def createCore (w : WorkoutCreate) (r : String) (db : List StoredWorkout) :
    StoredWorkout × List StoredWorkout :=
  let wd : StoredWorkout :=
    ⟨w.name, w.date, w.startTime, w.endTime, w.rating, w.comment,
     mkWorkoutId db.length r, []⟩
  (wd, db ++ [wd])

/-- The linear scan of `read_workout`: first workout with the given id. -/
def findWorkout (workout_id : String) : List StoredWorkout → Option StoredWorkout
  | [] => none
  | w :: ws => if w.id = workout_id then some w else findWorkout workout_id ws

/-- The store mutation of `update_workout`: find the first workout with the
given id and replace it in place by the request body's fields, keeping the
id and the existing exercises; `none` when no workout matches. -/
def updateList (workout_id : String) (w : WorkoutCreate) :
    List StoredWorkout → Option (StoredWorkout × List StoredWorkout)
  | [] => none
  | x :: xs =>
    if x.id = workout_id then
      let u : StoredWorkout :=
        ⟨w.name, w.date, w.startTime, w.endTime, w.rating, w.comment,
         workout_id, x.exercises⟩
      some (u, u :: xs)
    else
      match updateList workout_id w xs with
      | none => none
      | some (u, xs') => some (u, x :: xs')

/-- The store mutation of `delete_workout`: pop the first workout with the
given id; `none` when no workout matches. -/
def deleteList (workout_id : String) : List StoredWorkout → Option (List StoredWorkout)
  | [] => none
  | x :: xs =>
    if x.id = workout_id then some xs
    else
      match deleteList workout_id xs with
      | none => none
      | some xs' => some (x :: xs')

/-- The store mutation of `add_exercise`: find the first workout with the
given id and append to its exercises a dict built from the request body, a
fresh id from the current exercise count and the random suffix `r`, and an
empty sets list; `none` when no workout matches. -/
def addExerciseList (workout_id : String) (ex : Exercise) (r : String) :
    List StoredWorkout → Option (StoredExercise × List StoredWorkout)
  | [] => none
  | w :: ws =>
    if w.id = workout_id then
      let ed : StoredExercise :=
        ⟨ex.name, ex.category, mkExerciseId w.exercises.length r, []⟩
      some (ed, { w with exercises := w.exercises ++ [ed] } :: ws)
    else
      match addExerciseList workout_id ex r ws with
      | none => none
      | some (ed, ws') => some (ed, w :: ws')

/-- The 404 raised when a workout id does not resolve. -/
def workout_not_found : HTTPException :=
  ⟨404, "Workout not found", []⟩

/-- The list endpoint (`read_workouts`): READ-gated slice
`workouts_db[skip : skip + limit]`. -/
def read_workouts (skip limit : Nat) (user : UserInDB) (db : List StoredWorkout) :
    Except HTTPException (List StoredWorkout) :=
  match check_permission "READ" user with
  | .error e => .error e
  | .ok _ => .ok ((db.drop skip).take limit)

/-- The create endpoint (`create_workout`): WRITE-gated `createCore`,
returning the created dict and the grown store. -/
def create_workout (w : WorkoutCreate) (user : UserInDB) (r : String)
    (db : List StoredWorkout) :
    Except HTTPException (StoredWorkout × List StoredWorkout) :=
  match check_permission "WRITE" user with
  | .error e => .error e
  | .ok _ => .ok (createCore w r db)

/-- The single-read endpoint (`read_workout`): READ-gated linear scan,
404 when absent. -/
def read_workout (workout_id : String) (user : UserInDB) (db : List StoredWorkout) :
    Except HTTPException StoredWorkout :=
  match check_permission "READ" user with
  | .error e => .error e
  | .ok _ =>
    match findWorkout workout_id db with
    | some w => .ok w
    | none => .error workout_not_found

/-- The update endpoint (`update_workout`): WRITE-gated in-place
replacement, 404 when absent. -/
def update_workout (workout_id : String) (w : WorkoutCreate) (user : UserInDB)
    (db : List StoredWorkout) :
    Except HTTPException (StoredWorkout × List StoredWorkout) :=
  match check_permission "WRITE" user with
  | .error e => .error e
  | .ok _ =>
    match updateList workout_id w db with
    | some res => .ok res
    | none => .error workout_not_found

/-- The delete endpoint (`delete_workout`): DELETE-gated pop, 404 when
absent; returns the shrunken store (the HTTP response is 204-empty). -/
def delete_workout (workout_id : String) (user : UserInDB)
    (db : List StoredWorkout) :
    Except HTTPException (List StoredWorkout) :=
  match check_permission "DELETE" user with
  | .error e => .error e
  | .ok _ =>
    match deleteList workout_id db with
    | some db2 => .ok db2
    | none => .error workout_not_found

/-- The add-exercise endpoint (`add_exercise`): WRITE-gated append into the
matched workout, 404 when absent. -/
def add_exercise (workout_id : String) (ex : Exercise) (user : UserInDB)
    (r : String) (db : List StoredWorkout) :
    Except HTTPException (StoredExercise × List StoredWorkout) :=
  match check_permission "WRITE" user with
  | .error e => .error e
  | .ok _ =>
    match addExerciseList workout_id ex r db with
    | some res => .ok res
    | none => .error workout_not_found

/-! ## Store state machine

For the uniqueness claim the four mutating operations are run from the
initial empty store.  The random generator (`secrets.token_urlsafe(4)`) is
an oracle `rand : Nat → String` consuming one index per generated id. -/

/-- One mutating request against the workout store. -/
inductive StoreOp where
  | createOp : WorkoutCreate → StoreOp
  | updateOp : String → WorkoutCreate → StoreOp
  | deleteOp : String → StoreOp
  | addExOp : String → Exercise → StoreOp
deriving DecidableEq

/-- Store state: the workout list plus the number of oracle draws consumed. -/
structure StoreState where
  workouts : List StoredWorkout
  ctr : Nat
deriving DecidableEq

/-- One step of the store: create and a successful add-exercise consume one
oracle draw; update, delete, and any not-found request consume none. -/
def stepOp (rand : Nat → String) (s : StoreState) : StoreOp → StoreState
  | .createOp w => ⟨(createCore w (rand s.ctr) s.workouts).2, s.ctr + 1⟩
  | .updateOp wid w =>
    match updateList wid w s.workouts with
    | some (_, ws') => ⟨ws', s.ctr⟩
    | none => s
  | .deleteOp wid =>
    match deleteList wid s.workouts with
    | some ws' => ⟨ws', s.ctr⟩
    | none => s
  | .addExOp wid ex =>
    match addExerciseList wid ex (rand s.ctr) s.workouts with
    | some (_, ws') => ⟨ws', s.ctr + 1⟩
    | none => s

/-- Run a request sequence from the initial empty store. -/
def runOps (rand : Nat → String) (ops : List StoreOp) : StoreState :=
  ops.foldl (stepOp rand) ⟨[], 0⟩

/-! ## Claims about the access gate and the token codec -/

/-- C1: on a protected request whose token decodes and whose subject
resolves in the credential store, the gate's outcome is decided solely by
the freshly looked-up record's permission set — the token's embedded
permissions claim does not occur in the statement — and in particular a
missing permission yields the 403 forbidden outcome. -/
theorem gate_rechecks_store_permissions (mac : MacFun) (secret now : Nat)
    (t : SignedToken) (c : Claims) (u : String) (rec : UserInDB) (p : String)
    (hdec : jwtDecode mac ALGORITHM secret now t = .ok c)
    (hsub : c.sub = some u)
    (hrec : users_db u = some rec) :
    authorize mac secret now t p =
      if p ∈ rec.permissions then .ok rec
      else .error (missing_permission_exception p) := by
  have hgcu : get_current_user mac secret now t = .ok rec := by
    unfold get_current_user
    rw [hdec]
    simp [hsub, get_user, hrec]
  unfold authorize
  rw [hgcu]
  unfold check_permission
  by_cases hp : p ∈ rec.permissions <;> simp [hp]

/-- C1 witness: the stored "user" record lacks WRITE, the presented token
embeds WRITE, yet the gate answers 403 "Missing WRITE permission". -/
theorem gate_rechecks_store_permissions_witness :
    authorize (fun _ _ _ => 0) 0 0
      ⟨"HS256", ⟨some "user", ["READ", "WRITE"], 1⟩, 0⟩ "WRITE" =
      .error ⟨403, "Missing WRITE permission", []⟩ := by
  have h := gate_rechecks_store_permissions (fun _ _ _ => 0) 0 0
    ⟨"HS256", ⟨some "user", ["READ", "WRITE"], 1⟩, 0⟩
    ⟨some "user", ["READ", "WRITE"], 1⟩ "user"
    ⟨"user", "$2b$12$EixZaYVK1fsbw1ZfbX3OXePaWxn96p36WQoeG6Lruj3vjPGga31lW",
     ["READ"]⟩ "WRITE" rfl rfl (by decide)
  simpa [missing_permission_exception] using h

/-- C2: an unknown username and a failing password verification both make
login fail with literally the same observable outcome, the 401
`login_exception`, so the two runs are indistinguishable to the caller. -/
theorem login_failure_indistinguishable (vp : String → String → Bool)
    (mac : MacFun) (secret now : Nat) :
    (∀ u p, users_db u = none →
      login_for_access_token vp mac secret now u p = .error login_exception) ∧
    (∀ u p rec, users_db u = some rec → vp p rec.hashed_password = false →
      login_for_access_token vp mac secret now u p = .error login_exception) ∧
    login_exception.status_code = 401 := by
  refine ⟨?_, ?_, rfl⟩
  · intro u p hu
    unfold login_for_access_token authenticate_user get_user
    rw [hu]
  · intro u p rec hu hvp
    unfold login_for_access_token authenticate_user get_user
    rw [hu]
    simp [hvp]

/-- C2 witness: the unknown user "nobody" and the known user "user" with a
failing verifier produce the identical 401 outcome. -/
theorem login_failure_indistinguishable_witness :
    login_for_access_token (fun _ _ => false) (fun _ _ _ => 0) 0 0 "nobody" "x" =
      .error login_exception ∧
    login_for_access_token (fun _ _ => false) (fun _ _ _ => 0) 0 0 "user" "x" =
      .error login_exception := by
  refine ⟨?_, ?_⟩
  · exact (login_failure_indistinguishable (fun _ _ => false) (fun _ _ _ => 0) 0 0).1
      "nobody" "x" (by decide)
  · exact (login_failure_indistinguishable (fun _ _ => false) (fun _ _ _ => 0) 0 0).2.1
      "user" "x"
      ⟨"user", "$2b$12$EixZaYVK1fsbw1ZfbX3OXePaWxn96p36WQoeG6Lruj3vjPGga31lW",
       ["READ"]⟩ (by decide) rfl

/-- C3: a token produced by `encode` and immediately decoded with the same
secret and algorithm returns the encoded claims unchanged, provided the
clock is still strictly before the expiry (the codec rejects at or past
it). -/
theorem token_roundtrip (mac : MacFun) (alg : String) (secret now : Nat)
    (c : Claims) (h : now < c.exp) :
    jwtDecode mac alg secret now (jwtEncode mac alg secret c) = .ok c := by
  unfold jwtDecode jwtEncode
  simp [Nat.not_le.mpr h]

/-- C3 witness: a concrete claim set round-trips before its expiry. -/
theorem token_roundtrip_witness :
    jwtDecode (fun _ _ c => c.exp + 7) "HS256" 5 3
      (jwtEncode (fun _ _ c => c.exp + 7) "HS256" 5
        ⟨some "admin", ["READ"], 4⟩) =
      .ok ⟨some "admin", ["READ"], 4⟩ :=
  token_roundtrip (fun _ _ c => c.exp + 7) "HS256" 5 3
    ⟨some "admin", ["READ"], 4⟩ (by decide)

/-- C4: a correctly signed token whose expiry is at or before the current
time is rejected by `decode` with the expiry error, and the protected
request is refused with the 401 `credentials_exception`. -/
theorem expired_token_rejected (mac : MacFun) (secret now : Nat)
    (t : SignedToken)
    (halg : t.alg = ALGORITHM)
    (hsig : t.sig = mac t.alg secret t.claims)
    (hexp : t.claims.exp ≤ now) :
    jwtDecode mac ALGORITHM secret now t = .error .expired ∧
    get_current_user mac secret now t = .error credentials_exception ∧
    credentials_exception.status_code = 401 := by
  have hdec : jwtDecode mac ALGORITHM secret now t = .error .expired := by
    unfold jwtDecode
    simp [halg, hsig, hexp]
  refine ⟨hdec, ?_, rfl⟩
  unfold get_current_user
  rw [hdec]

/-- C4 witness: a concrete correctly signed token with expiry equal to the
current time is rejected as expired and the request gets the 401. -/
theorem expired_token_rejected_witness :
    jwtDecode (fun _ _ _ => 9) "HS256" 2 6 ⟨"HS256", ⟨some "admin", [], 6⟩, 9⟩ =
      .error .expired ∧
    get_current_user (fun _ _ _ => 9) 2 6 ⟨"HS256", ⟨some "admin", [], 6⟩, 9⟩ =
      .error credentials_exception :=
  have h := expired_token_rejected (fun _ _ _ => 9) 2 6
    ⟨"HS256", ⟨some "admin", [], 6⟩, 9⟩ rfl rfl (by decide)
  ⟨h.1, h.2.1⟩

/-- C5: a token whose signature does not match the header+payload under
the shared secret (payload altered after signing) is rejected with the
signature-mismatch error irrespective of its expiry and of the current
time, and that rejection is distinct from the expiry rejection. -/
theorem missigned_token_rejected (mac : MacFun) (secret now : Nat)
    (t : SignedToken)
    (halg : t.alg = ALGORITHM)
    (hsig : t.sig ≠ mac t.alg secret t.claims) :
    jwtDecode mac ALGORITHM secret now t = .error .badSig ∧
    get_current_user mac secret now t = .error credentials_exception ∧
    DecodeError.badSig ≠ DecodeError.expired := by
  have hdec : jwtDecode mac ALGORITHM secret now t = .error .badSig := by
    rw [halg] at hsig
    unfold jwtDecode
    simp [halg, hsig]
  refine ⟨hdec, ?_, by decide⟩
  unfold get_current_user
  rw [hdec]

/-- C5 witness: a concrete unexpired token with an altered payload (its
signature no longer matches) is rejected with the signature error. -/
theorem missigned_token_rejected_witness :
    jwtDecode (fun _ _ c => c.exp) "HS256" 0 0 ⟨"HS256", ⟨some "admin", [], 99⟩, 3⟩ =
      .error .badSig ∧
    get_current_user (fun _ _ c => c.exp) 0 0 ⟨"HS256", ⟨some "admin", [], 99⟩, 3⟩ =
      .error credentials_exception :=
  have h := missigned_token_rejected (fun _ _ c => c.exp) 0 0
    ⟨"HS256", ⟨some "admin", [], 99⟩, 3⟩ rfl (by decide)
  ⟨h.1, h.2.1⟩

/-- Helper: a granted permission makes `check_permission` succeed. -/
theorem check_permission_ok {p : String} {user : UserInDB}
    (h : p ∈ user.permissions) : check_permission p user = .ok () := by
  unfold check_permission
  simp [h]

/-- Helper: a missing permission makes `check_permission` fail with the
403 naming it. -/
theorem check_permission_err {p : String} {user : UserInDB}
    (h : p ∉ user.permissions) :
    check_permission p user = .error (missing_permission_exception p) := by
  unfold check_permission
  simp [h]

/-- Helper: the 404 and the 403 outcomes differ (status 404 vs 403). -/
theorem workout_not_found_ne_missing (p : String) :
    workout_not_found ≠ missing_permission_exception p := by
  unfold workout_not_found missing_permission_exception
  intro h
  cases h

/-- C6: every identity failure of the gate — decode failure, missing
subject, or a subject gone from the store — is the single 401
`credentials_exception` carrying the WWW-Authenticate Bearer header, while
a permission failure is a 403 naming the missing permission; no permission
failure equals an identity failure. -/
theorem two_tier_rejection (mac : MacFun) (secret now : Nat) :
    (∀ t err, jwtDecode mac ALGORITHM secret now t = .error err →
      get_current_user mac secret now t = .error credentials_exception) ∧
    (∀ t c, jwtDecode mac ALGORITHM secret now t = .ok c → c.sub = none →
      get_current_user mac secret now t = .error credentials_exception) ∧
    (∀ t c u, jwtDecode mac ALGORITHM secret now t = .ok c → c.sub = some u →
      users_db u = none →
      get_current_user mac secret now t = .error credentials_exception) ∧
    (credentials_exception.status_code = 401 ∧
      credentials_exception.headers = [("WWW-Authenticate", "Bearer")]) ∧
    (∀ user p, p ∉ user.permissions →
      check_permission p user = .error (missing_permission_exception p)) ∧
    (∀ p, (missing_permission_exception p).status_code = 403 ∧
      (missing_permission_exception p).detail = "Missing " ++ p ++ " permission") ∧
    (∀ p, missing_permission_exception p ≠ credentials_exception) := by
  refine ⟨?_, ?_, ?_, ⟨rfl, rfl⟩, ?_, fun p => ⟨rfl, rfl⟩, ?_⟩
  · intro t err hdec
    unfold get_current_user
    rw [hdec]
  · intro t c hdec hsub
    unfold get_current_user
    rw [hdec]
    simp [hsub]
  · intro t c u hdec hsub hu
    unfold get_current_user
    rw [hdec]
    simp [hsub, get_user, hu]
  · intro user p hp
    exact check_permission_err hp
  · intro p h
    have := congrArg HTTPException.status_code h
    simp [missing_permission_exception, credentials_exception] at this

/-- C6 witness: a concretely mis-signed token gets the 401, and the READ
user asking for WRITE gets the distinct 403 naming WRITE. -/
theorem two_tier_rejection_witness :
    get_current_user (fun _ _ _ => 0) 0 0 ⟨"HS256", ⟨some "user", [], 9⟩, 1⟩ =
      .error credentials_exception ∧
    check_permission "WRITE"
      ⟨"user", "$2b$12$EixZaYVK1fsbw1ZfbX3OXePaWxn96p36WQoeG6Lruj3vjPGga31lW",
       ["READ"]⟩ =
      .error (missing_permission_exception "WRITE") ∧
    missing_permission_exception "WRITE" ≠ credentials_exception := by
  have h := two_tier_rejection (fun _ _ _ => 0) 0 0
  exact ⟨h.1 ⟨"HS256", ⟨some "user", [], 9⟩, 1⟩ .badSig rfl,
    h.2.2.2.2.1 _ "WRITE" (by decide),
    h.2.2.2.2.2.2 "WRITE"⟩

/-- C7: each protected operation is gated by its fixed permission — the
two read operations fail with the 403 naming READ exactly when the user
lacks READ, create, update and add-exercise fail with the 403 naming WRITE
exactly when the user lacks WRITE, and delete fails with the 403 naming
DELETE exactly when the user lacks DELETE. -/
theorem endpoint_permission_map (user : UserInDB) (db : List StoredWorkout) :
    (∀ skip limit,
      (read_workouts skip limit user db =
        .error (missing_permission_exception "READ") ↔
        "READ" ∉ user.permissions)) ∧
    (∀ wid,
      (read_workout wid user db = .error (missing_permission_exception "READ") ↔
        "READ" ∉ user.permissions)) ∧
    (∀ w r,
      (create_workout w user r db = .error (missing_permission_exception "WRITE") ↔
        "WRITE" ∉ user.permissions)) ∧
    (∀ wid w,
      (update_workout wid w user db =
        .error (missing_permission_exception "WRITE") ↔
        "WRITE" ∉ user.permissions)) ∧
    (∀ wid ex r,
      (add_exercise wid ex user r db =
        .error (missing_permission_exception "WRITE") ↔
        "WRITE" ∉ user.permissions)) ∧
    (∀ wid,
      (delete_workout wid user db = .error (missing_permission_exception "DELETE") ↔
        "DELETE" ∉ user.permissions)) := by
  refine ⟨?_, ?_, ?_, ?_, ?_, ?_⟩
  · intro skip limit
    unfold read_workouts
    by_cases h : "READ" ∈ user.permissions
    · rw [check_permission_ok h]
      simp [h]
    · rw [check_permission_err h]
      simp [h]
  · intro wid
    unfold read_workout
    by_cases h : "READ" ∈ user.permissions
    · rw [check_permission_ok h]
      cases hf : findWorkout wid db with
      | some w => simp [h]
      | none => simp [h, workout_not_found_ne_missing]
    · rw [check_permission_err h]
      simp [h]
  · intro w r
    unfold create_workout
    by_cases h : "WRITE" ∈ user.permissions
    · rw [check_permission_ok h]
      simp [h]
    · rw [check_permission_err h]
      simp [h]
  · intro wid w
    unfold update_workout
    by_cases h : "WRITE" ∈ user.permissions
    · rw [check_permission_ok h]
      cases hf : updateList wid w db with
      | some res => simp [h]
      | none => simp [h, workout_not_found_ne_missing]
    · rw [check_permission_err h]
      simp [h]
  · intro wid ex r
    unfold add_exercise
    by_cases h : "WRITE" ∈ user.permissions
    · rw [check_permission_ok h]
      cases hf : addExerciseList wid ex r db with
      | some res => simp [h]
      | none => simp [h, workout_not_found_ne_missing]
    · rw [check_permission_err h]
      simp [h]
  · intro wid
    unfold delete_workout
    by_cases h : "DELETE" ∈ user.permissions
    · rw [check_permission_ok h]
      cases hf : deleteList wid db with
      | some db2 => simp [h]
      | none => simp [h, workout_not_found_ne_missing]
    · rw [check_permission_err h]
      simp [h]

/-- C7 witness: the READ-only user is refused workout creation with the
403 naming WRITE on the empty store. -/
theorem endpoint_permission_map_witness :
    create_workout ⟨"Leg Day", "2024-01-01", "08:00", "09:00", none, none⟩
      ⟨"user", "$2b$12$EixZaYVK1fsbw1ZfbX3OXePaWxn96p36WQoeG6Lruj3vjPGga31lW",
       ["READ"]⟩ "AAAAAA" [] =
      .error (missing_permission_exception "WRITE") :=
  ((endpoint_permission_map
      ⟨"user", "$2b$12$EixZaYVK1fsbw1ZfbX3OXePaWxn96p36WQoeG6Lruj3vjPGga31lW",
       ["READ"]⟩ []).2.2.1
    ⟨"Leg Day", "2024-01-01", "08:00", "09:00", none, none⟩ "AAAAAA").mpr
    (by decide)

/-- C8: a successful login issues a token expiring at now plus the
explicitly passed 5-minute TTL, while the encode step called without a TTL
argument defaults to the separate fixed 15-minute constant. -/
theorem token_ttl (vp : String → String → Bool) (mac : MacFun) (secret : Nat) :
    (∀ now u p tok, login_for_access_token vp mac secret now u p = .ok tok →
      tok.access_token.claims.exp = now + ACCESS_TOKEN_EXPIRE_MINUTES * 60) ∧
    (∀ data now, (create_access_token mac secret data none now).claims.exp =
      now + 15 * 60) := by
  constructor
  · intro now u p tok h
    unfold login_for_access_token at h
    cases ha : authenticate_user vp u p with
    | none => rw [ha] at h; cases h
    | some user =>
      rw [ha] at h
      cases h
      rfl
  · intro data now
    rfl

/-- C8 witness: admin's login token with the identically-true verifier
expires 300 seconds after issuance, and a TTL-less encode expires 900
seconds after issuance. -/
theorem token_ttl_witness :
    (∀ tok, login_for_access_token (fun _ _ => true) (fun _ _ _ => 0) 0 11
        "admin" "secret" = .ok tok →
      tok.access_token.claims.exp = 11 + ACCESS_TOKEN_EXPIRE_MINUTES * 60) ∧
    (create_access_token (fun _ _ _ => 0) 0 ⟨some "admin", []⟩ none 11).claims.exp =
      11 + 15 * 60 := by
  have h := token_ttl (fun _ _ => true) (fun _ _ _ => 0) 0
  exact ⟨fun tok htok => h.1 11 "admin" "secret" tok htok, h.2 ⟨some "admin", []⟩ 11⟩

/-- Helper: the exact shape of a successful `updateList`: the store splits
as `pre ++ old :: post` around the first match, and the result replaces
`old` by the request body's base fields with the old id and exercises. -/
theorem updateList_eq_some (workout_id : String) (w : WorkoutCreate) :
    ∀ (db : List StoredWorkout) (u : StoredWorkout) (db' : List StoredWorkout),
      updateList workout_id w db = some (u, db') →
      ∃ pre old post,
        db = pre ++ old :: post ∧
        old.id = workout_id ∧
        (∀ x ∈ pre, x.id ≠ workout_id) ∧
        db' = pre ++ u :: post ∧
        u = ⟨w.name, w.date, w.startTime, w.endTime, w.rating, w.comment,
             workout_id, old.exercises⟩ := by
  intro db
  induction db with
  | nil => intro u db' h; cases h
  | cons x xs ih =>
    intro u db' h
    unfold updateList at h
    by_cases hx : x.id = workout_id
    · rw [if_pos hx] at h
      injection h with h
      injection h with h1 h2
      refine ⟨[], x, xs, by simp, hx, by simp, by simp [← h2, ← h1], h1.symm⟩
    · rw [if_neg hx] at h
      cases hrec : updateList workout_id w xs with
      | none => rw [hrec] at h; cases h
      | some res =>
        rw [hrec] at h
        obtain ⟨u1, xs'⟩ := res
        injection h with h
        injection h with h1 h2
        obtain ⟨pre, old, post, hdb, hold, hpre, hdb', hu⟩ := ih u1 xs' hrec
        refine ⟨x :: pre, old, post, by simp [hdb], hold, ?_, ?_, h1 ▸ hu⟩
        · intro y hy
          rcases List.mem_cons.mp hy with hy | hy
          · exact hy ▸ hx
          · exact hpre y hy
        · simp [← h2, hdb', ← h1]

/-- C10: when an update request finds a workout, the stored record after
the update keeps the found record's id and exactly its exercises list, its
base fields are replaced by the request body's values, and the workouts
before and after the replaced position are unchanged. -/
theorem update_workout_frame (workout_id : String) (w : WorkoutCreate)
    (user : UserInDB) (db : List StoredWorkout) (u : StoredWorkout)
    (db' : List StoredWorkout)
    (h : update_workout workout_id w user db = .ok (u, db')) :
    ∃ pre old post,
      db = pre ++ old :: post ∧
      old.id = workout_id ∧
      (∀ x ∈ pre, x.id ≠ workout_id) ∧
      db' = pre ++ u :: post ∧
      u.id = old.id ∧
      u.exercises = old.exercises ∧
      u.name = w.name ∧ u.date = w.date ∧ u.startTime = w.startTime ∧
      u.endTime = w.endTime ∧ u.rating = w.rating ∧ u.comment = w.comment := by
  unfold update_workout at h
  by_cases hp : "WRITE" ∈ user.permissions
  · rw [check_permission_ok hp] at h
    cases hrec : updateList workout_id w db with
    | none => rw [hrec] at h; cases h
    | some res =>
      rw [hrec] at h
      obtain ⟨u1, db1⟩ := res
      injection h with h
      injection h with h1 h2
      rw [h1, h2] at hrec
      obtain ⟨pre, old, post, hdb, hold, hpre, hdb', hu⟩ :=
        updateList_eq_some workout_id w db u db' hrec
      exact ⟨pre, old, post, hdb, hold, hpre, hdb',
        by rw [hu, hold], by rw [hu], by rw [hu], by rw [hu], by rw [hu],
        by rw [hu], by rw [hu], by rw [hu]⟩
  · rw [check_permission_err hp] at h
    cases h

/-- C10 witness: updating the single stored workout keeps its id and
exercises and leaves nothing else. -/
theorem update_workout_frame_witness :
    ∃ pre old post,
      ([⟨"Leg Day", "2024-01-01", "08:00", "09:00", none, none, "0_AAAAAA", []⟩] :
        List StoredWorkout) = pre ++ old :: post ∧
      old.id = "0_AAAAAA" ∧
      (∀ x ∈ pre, x.id ≠ "0_AAAAAA") ∧
      ([⟨"Arm Day", "2024-01-02", "08:00", "09:00", none, none, "0_AAAAAA", []⟩] :
        List StoredWorkout) = pre ++
        (⟨"Arm Day", "2024-01-02", "08:00", "09:00", none, none, "0_AAAAAA", []⟩ :
          StoredWorkout) :: post ∧
      (⟨"Arm Day", "2024-01-02", "08:00", "09:00", none, none, "0_AAAAAA", []⟩ :
        StoredWorkout).id = old.id :=
  have h := update_workout_frame "0_AAAAAA"
    ⟨"Arm Day", "2024-01-02", "08:00", "09:00", none, none⟩
    ⟨"admin", "$2b$12$EixZaYVK1fsbw1ZfbX3OXePaWxn96p36WQoeG6Lruj3vjPGga31lW",
     ["READ", "WRITE", "DELETE"]⟩
    [⟨"Leg Day", "2024-01-01", "08:00", "09:00", none, none, "0_AAAAAA", []⟩]
    ⟨"Arm Day", "2024-01-02", "08:00", "09:00", none, none, "0_AAAAAA", []⟩
    [⟨"Arm Day", "2024-01-02", "08:00", "09:00", none, none, "0_AAAAAA", []⟩]
    rfl
  have ⟨pre, old, post, h1, h2, h3, h4, h5, _⟩ := h
  ⟨pre, old, post, h1, h2, h3, h4, h5⟩

/-! ## Id uniqueness in the workout store -/

/-- Helper: the exact shape of a successful `deleteList`: the store splits
around the first match and the result drops it. -/
theorem deleteList_eq_some (workout_id : String) :
    ∀ (db db' : List StoredWorkout), deleteList workout_id db = some db' →
      ∃ pre old post,
        db = pre ++ old :: post ∧
        old.id = workout_id ∧
        (∀ x ∈ pre, x.id ≠ workout_id) ∧
        db' = pre ++ post := by
  intro db
  induction db with
  | nil => intro db' h; cases h
  | cons x xs ih =>
    intro db' h
    unfold deleteList at h
    by_cases hx : x.id = workout_id
    · rw [if_pos hx] at h
      injection h with h
      exact ⟨[], x, xs, by simp, hx, by simp, by simp [← h]⟩
    · rw [if_neg hx] at h
      cases hrec : deleteList workout_id xs with
      | none => rw [hrec] at h; cases h
      | some xs' =>
        rw [hrec] at h
        injection h with h
        obtain ⟨pre, old, post, hdb, hold, hpre, hdb'⟩ := ih xs' hrec
        refine ⟨x :: pre, old, post, by simp [hdb], hold, ?_, by simp [← h, hdb']⟩
        intro y hy
        rcases List.mem_cons.mp hy with hy | hy
        · exact hy ▸ hx
        · exact hpre y hy

/-- Helper: the exact shape of a successful `addExerciseList`: the store
splits around the first match, the new exercise gets its id from the match's
current exercise count and the draw `r`, and it is appended there. -/
theorem addExerciseList_eq_some (workout_id : String) (ex : Exercise) (r : String) :
    ∀ (db : List StoredWorkout) (ed : StoredExercise) (db' : List StoredWorkout),
      addExerciseList workout_id ex r db = some (ed, db') →
      ∃ pre old post,
        db = pre ++ old :: post ∧
        old.id = workout_id ∧
        (∀ x ∈ pre, x.id ≠ workout_id) ∧
        ed = ⟨ex.name, ex.category, mkExerciseId old.exercises.length r, []⟩ ∧
        db' = pre ++ { old with exercises := old.exercises ++ [ed] } :: post := by
  intro db
  induction db with
  | nil => intro ed db' h; cases h
  | cons x xs ih =>
    intro ed db' h
    unfold addExerciseList at h
    by_cases hx : x.id = workout_id
    · rw [if_pos hx] at h
      injection h with h
      injection h with h1 h2
      exact ⟨[], x, xs, by simp, hx, by simp, h1.symm, by simp [← h2, ← h1]⟩
    · rw [if_neg hx] at h
      cases hrec : addExerciseList workout_id ex r xs with
      | none => rw [hrec] at h; cases h
      | some res =>
        rw [hrec] at h
        obtain ⟨ed1, xs'⟩ := res
        injection h with h
        injection h with h1 h2
        rw [h1] at hrec
        obtain ⟨pre, old, post, hdb, hold, hpre, hed, hdb'⟩ := ih ed xs' hrec
        refine ⟨x :: pre, old, post, by simp [hdb], hold, ?_, hed,
          by simp [← h2, hdb']⟩
        intro y hy
        rcases List.mem_cons.mp hy with hy | hy
        · exact hy ▸ hx
        · exact hpre y hy

/-- Helper: pick the partner of a left member of a `Forall₂`. -/
theorem forall2_mem_left {α β : Type} {R : α → β → Prop} :
    ∀ {l : List α} {l' : List β}, List.Forall₂ R l l' →
      ∀ {a : α}, a ∈ l → ∃ b ∈ l', R a b := by
  intro l l' h
  induction h with
  | nil => intro a ha; cases ha
  | cons hab _ ih =>
    intro a ha
    rcases List.mem_cons.mp ha with ha | ha
    · exact ⟨_, List.mem_cons_self _ _, ha ▸ hab⟩
    · obtain ⟨b, hb, hR⟩ := ih ha
      exact ⟨b, List.mem_cons_of_mem _ hb, hR⟩

/-- Helper: pick the partner of a right member of a `Forall₂`. -/
theorem forall2_mem_right {α β : Type} {R : α → β → Prop} :
    ∀ {l : List α} {l' : List β}, List.Forall₂ R l l' →
      ∀ {b : β}, b ∈ l' → ∃ a ∈ l, R a b := by
  intro l l' h
  induction h with
  | nil => intro b hb; cases hb
  | cons hab _ ih =>
    intro b hb
    rcases List.mem_cons.mp hb with hb | hb
    · exact ⟨_, List.mem_cons_self _ _, hb ▸ hab⟩
    · obtain ⟨a, ha, hR⟩ := ih hb
      exact ⟨a, List.mem_cons_of_mem _ ha, hR⟩

/-- Helper: `Forall₂` composes along appends. -/
theorem forall2_append {α β : Type} {R : α → β → Prop} :
    ∀ {l₁ l₂ : List α} {l₁' l₂' : List β}, List.Forall₂ R l₁ l₁' →
      List.Forall₂ R l₂ l₂' → List.Forall₂ R (l₁ ++ l₂) (l₁' ++ l₂') := by
  intro l₁ l₂ l₁' l₂' h1 h2
  induction h1 with
  | nil => simpa using h2
  | cons hab _ ih => exact List.Forall₂.cons hab ih

/-- Helper: a `Forall₂` whose left side splits around a middle element
splits on the right side as well. -/
theorem forall2_decomp_middle {α β : Type} {R : α → β → Prop} :
    ∀ {pre : List α} {a : α} {post : List α} {l' : List β},
      List.Forall₂ R (pre ++ a :: post) l' →
      ∃ js1 j js2, l' = js1 ++ j :: js2 ∧
        List.Forall₂ R pre js1 ∧ R a j ∧ List.Forall₂ R post js2 := by
  intro pre
  induction pre with
  | nil =>
    intro a post l' h
    cases h with
    | cons hab h => exact ⟨[], _, _, by simp, List.Forall₂.nil, hab, h⟩
  | cons x xs ih =>
    intro a post l' h
    cases h with
    | cons hxb h =>
      obtain ⟨js1, j, js2, hl, hpre, haj, hpost⟩ := ih h
      exact ⟨_ :: js1, j, js2, by simp [hl], List.Forall₂.cons hxb hpre, haj, hpost⟩

/-- A workout id built from some count and the oracle draw `j` made before
`ctr`. -/
def widOk (rand : Nat → String) (ctr : Nat) (w : StoredWorkout) (j : Nat) : Prop :=
  j < ctr ∧ ∃ n, w.id = mkWorkoutId n (rand j)

/-- An exercise id built from some count and the oracle draw `j` made
before `ctr`. -/
def exIdOk (rand : Nat → String) (ctr : Nat) (e : StoredExercise) (j : Nat) : Prop :=
  j < ctr ∧ ∃ n, e.id = mkExerciseId n (rand j)

/-- The store invariant: the workout ids use pairwise-distinct oracle
draws all made before `ctr`, and so do the exercise ids within each
workout. -/
def StoreInv (rand : Nat → String) (s : StoreState) : Prop :=
  (∃ js, List.Forall₂ (widOk rand s.ctr) s.workouts js ∧
    js.Pairwise (· ≠ ·)) ∧
  (∀ w ∈ s.workouts, ∃ ks, List.Forall₂ (exIdOk rand s.ctr) w.exercises ks ∧
    ks.Pairwise (· ≠ ·))

/-- Helper: `widOk` is monotone in the draw bound. -/
theorem widOk_mono {rand : Nat → String} {ctr ctr' : Nat} (h : ctr ≤ ctr')
    {w : StoredWorkout} {j : Nat} : widOk rand ctr w j → widOk rand ctr' w j :=
  fun ⟨hj, hn⟩ => ⟨lt_of_lt_of_le hj h, hn⟩

/-- Helper: `exIdOk` is monotone in the draw bound. -/
theorem exIdOk_mono {rand : Nat → String} {ctr ctr' : Nat} (h : ctr ≤ ctr')
    {e : StoredExercise} {j : Nat} : exIdOk rand ctr e j → exIdOk rand ctr' e j :=
  fun ⟨hj, hn⟩ => ⟨lt_of_lt_of_le hj h, hn⟩

/-- Helper: `widOk` only looks at the workout's id. -/
theorem widOk_of_id_eq {rand : Nat → String} {ctr : Nat} {w w' : StoredWorkout}
    {j : Nat} (h : w'.id = w.id) : widOk rand ctr w j → widOk rand ctr w' j :=
  fun ⟨hj, n, hn⟩ => ⟨hj, n, h ▸ hn⟩

/-- Helper: all draws listed by a `Forall₂ (widOk rand ctr)` lie below
`ctr`. -/
theorem widOk_js_lt {rand : Nat → String} {ctr : Nat} {ws : List StoredWorkout}
    {js : List Nat} (h : List.Forall₂ (widOk rand ctr) ws js) :
    ∀ j ∈ js, j < ctr := by
  intro j hj
  obtain ⟨w, _, hok⟩ := forall2_mem_right h hj
  exact hok.1

/-- Helper: all draws listed by a `Forall₂ (exIdOk rand ctr)` lie below
`ctr`. -/
theorem exIdOk_ks_lt {rand : Nat → String} {ctr : Nat} {es : List StoredExercise}
    {ks : List Nat} (h : List.Forall₂ (exIdOk rand ctr) es ks) :
    ∀ k ∈ ks, k < ctr := by
  intro k hk
  obtain ⟨e, _, hok⟩ := forall2_mem_right h hk
  exact hok.1

/-- Helper: two equal workout ids with equal-length suffixes have equal
suffixes. -/
theorem mkWorkoutId_suffix_inj {n n' : Nat} {r r' : String}
    (hl : r.length = r'.length) (h : mkWorkoutId n r = mkWorkoutId n' r') :
    r = r' := by
  unfold mkWorkoutId at h
  have hdata : (Nat.repr n ++ "_").data ++ r.data =
      (Nat.repr n' ++ "_").data ++ r'.data := by
    rw [← String.data_append, ← String.data_append, h]
  exact String.ext (List.append_inj' hdata hl).2

/-- Helper: two equal exercise ids with equal-length suffixes have equal
suffixes. -/
theorem mkExerciseId_suffix_inj {n n' : Nat} {r r' : String}
    (hl : r.length = r'.length) (h : mkExerciseId n r = mkExerciseId n' r') :
    r = r' := by
  unfold mkExerciseId at h
  have hdata : (Nat.repr n).data ++ r.data = (Nat.repr n').data ++ r'.data := by
    rw [← String.data_append, ← String.data_append, h]
  exact String.ext (List.append_inj' hdata hl).2

/-- Helper: every step of the store preserves the invariant. -/
theorem storeInv_step (rand : Nat → String) (s : StoreState) (op : StoreOp)
    (h : StoreInv rand s) : StoreInv rand (stepOp rand s op) := by
  obtain ⟨⟨js, hf, hp⟩, hex⟩ := h
  cases op with
  | createOp w =>
    refine ⟨⟨js ++ [s.ctr], ?_, ?_⟩, ?_⟩
    · exact forall2_append (hf.imp fun _ _ => widOk_mono (Nat.le_succ _))
        (List.Forall₂.cons
          ⟨Nat.lt_succ_self _, s.workouts.length, rfl⟩ List.Forall₂.nil)
    · refine List.pairwise_append.mpr ⟨hp, by simp, ?_⟩
      intro a ha b hb
      rw [List.mem_singleton.mp hb]
      exact Nat.ne_of_lt (widOk_js_lt hf a ha)
    · intro w' hw'
      rcases List.mem_append.mp hw' with hw' | hw'
      · obtain ⟨ks, hfk, hpk⟩ := hex w' hw'
        exact ⟨ks, hfk.imp fun _ _ => exIdOk_mono (Nat.le_succ _), hpk⟩
      · rw [List.mem_singleton.mp hw']
        exact ⟨[], List.Forall₂.nil, by simp⟩
  | updateOp wid w =>
    show StoreInv rand (match updateList wid w s.workouts with
      | some (_, ws') => ⟨ws', s.ctr⟩
      | none => s)
    cases hrec : updateList wid w s.workouts with
    | none => exact ⟨⟨js, hf, hp⟩, hex⟩
    | some res =>
      obtain ⟨u, ws'⟩ := res
      obtain ⟨pre, old, post, hdb, hold, _, hdb', hu⟩ :=
        updateList_eq_some wid w s.workouts u ws' hrec
      have huid : u.id = old.id := by rw [hu, hold]
      have huex : u.exercises = old.exercises := by rw [hu]
      rw [hdb] at hf
      obtain ⟨js1, j, js2, hjs, hpre, hoj, hpost⟩ := forall2_decomp_middle hf
      constructor
      · refine ⟨js, ?_, hp⟩
        rw [hdb', hjs]
        exact forall2_append hpre (List.Forall₂.cons (widOk_of_id_eq huid hoj) hpost)
      · intro w' hw'
        rw [hdb'] at hw'
        rcases List.mem_append.mp hw' with hw' | hw'
        · exact hex w' (hdb ▸ List.mem_append_left _ hw')
        · rcases List.mem_cons.mp hw' with hw' | hw'
          · obtain ⟨ks, hfk, hpk⟩ :=
              hex old (hdb ▸ List.mem_append_right _ (List.mem_cons_self _ _))
            exact ⟨ks, by rw [hw', huex]; exact hfk, hpk⟩
          · exact hex w'
              (hdb ▸ List.mem_append_right _ (List.mem_cons_of_mem _ hw'))
  | deleteOp wid =>
    show StoreInv rand (match deleteList wid s.workouts with
      | some ws' => ⟨ws', s.ctr⟩
      | none => s)
    cases hrec : deleteList wid s.workouts with
    | none => exact ⟨⟨js, hf, hp⟩, hex⟩
    | some ws' =>
      obtain ⟨pre, old, post, hdb, _, _, hdb'⟩ :=
        deleteList_eq_some wid s.workouts ws' hrec
      rw [hdb] at hf
      obtain ⟨js1, j, js2, hjs, hpre, _, hpost⟩ := forall2_decomp_middle hf
      constructor
      · refine ⟨js1 ++ js2, ?_, ?_⟩
        · rw [hdb']
          exact forall2_append hpre hpost
        · refine List.Pairwise.sublist ?_ (hjs ▸ hp)
          exact List.Sublist.append_left (List.sublist_cons_self j js2) js1
      · intro w' hw'
        rw [hdb'] at hw'
        rcases List.mem_append.mp hw' with hw' | hw'
        · exact hex w' (hdb ▸ List.mem_append_left _ hw')
        · exact hex w'
            (hdb ▸ List.mem_append_right _ (List.mem_cons_of_mem _ hw'))
  | addExOp wid ex =>
    show StoreInv rand (match addExerciseList wid ex (rand s.ctr) s.workouts with
      | some (_, ws') => ⟨ws', s.ctr + 1⟩
      | none => s)
    cases hrec : addExerciseList wid ex (rand s.ctr) s.workouts with
    | none => exact ⟨⟨js, hf, hp⟩, hex⟩
    | some res =>
      obtain ⟨ed, ws'⟩ := res
      obtain ⟨pre, old, post, hdb, hold, _, hed, hdb'⟩ :=
        addExerciseList_eq_some wid ex (rand s.ctr) s.workouts ed ws' hrec
      have hmono : s.ctr ≤ s.ctr + 1 := Nat.le_succ _
      rw [hdb] at hf
      obtain ⟨js1, j, js2, hjs, hpre, hoj, hpost⟩ := forall2_decomp_middle hf
      constructor
      · refine ⟨js, ?_, hp⟩
        rw [hdb', hjs]
        refine forall2_append (hpre.imp fun _ _ => widOk_mono hmono)
          (List.Forall₂.cons (widOk_of_id_eq (by simp) (widOk_mono hmono hoj))
            (hpost.imp fun _ _ => widOk_mono hmono))
      · intro w' hw'
        rw [hdb'] at hw'
        rcases List.mem_append.mp hw' with hw' | hw'
        · obtain ⟨ks, hfk, hpk⟩ := hex w' (hdb ▸ List.mem_append_left _ hw')
          exact ⟨ks, hfk.imp fun _ _ => exIdOk_mono hmono, hpk⟩
        · rcases List.mem_cons.mp hw' with hw' | hw'
          · obtain ⟨ks, hfk, hpk⟩ :=
              hex old (hdb ▸ List.mem_append_right _ (List.mem_cons_self _ _))
            refine ⟨ks ++ [s.ctr], ?_, ?_⟩
            · rw [hw']
              simp only []
              refine forall2_append (hfk.imp fun _ _ => exIdOk_mono hmono)
                (List.Forall₂.cons ⟨Nat.lt_succ_self _,
                  old.exercises.length, by rw [hed]⟩ List.Forall₂.nil)
            · refine List.pairwise_append.mpr ⟨hpk, by simp, ?_⟩
              intro a ha b hb
              rw [List.mem_singleton.mp hb]
              exact Nat.ne_of_lt (exIdOk_ks_lt hfk a ha)
          · obtain ⟨ks, hfk, hpk⟩ := hex w'
              (hdb ▸ List.mem_append_right _ (List.mem_cons_of_mem _ hw'))
            exact ⟨ks, hfk.imp fun _ _ => exIdOk_mono hmono, hpk⟩

/-- Helper: the invariant holds at the end of any run. -/
theorem storeInv_run (rand : Nat → String) (ops : List StoreOp) :
    StoreInv rand (runOps rand ops) := by
  have hgen : ∀ (l : List StoreOp) (s : StoreState), StoreInv rand s →
      StoreInv rand (l.foldl (stepOp rand) s) := by
    intro l
    induction l with
    | nil => intro s hs; exact hs
    | cons op l ih =>
      intro s hs
      exact ih _ (storeInv_step rand s op hs)
  exact hgen ops ⟨[], 0⟩ ⟨⟨[], List.Forall₂.nil, by simp⟩, by simp⟩

/-- Helper: each step consumes at most one oracle draw. -/
theorem stepOp_ctr_le (rand : Nat → String) (s : StoreState) (op : StoreOp) :
    (stepOp rand s op).ctr ≤ s.ctr + 1 := by
  cases op with
  | createOp w => exact Nat.le_refl _
  | updateOp wid w =>
    show (match updateList wid w s.workouts with
      | some (_, ws') => (⟨ws', s.ctr⟩ : StoreState)
      | none => s).ctr ≤ s.ctr + 1
    cases updateList wid w s.workouts with
    | none => exact Nat.le_succ _
    | some res => obtain ⟨u, ws'⟩ := res; exact Nat.le_succ _
  | deleteOp wid =>
    show (match deleteList wid s.workouts with
      | some ws' => (⟨ws', s.ctr⟩ : StoreState)
      | none => s).ctr ≤ s.ctr + 1
    cases deleteList wid s.workouts with
    | none => exact Nat.le_succ _
    | some ws' => exact Nat.le_succ _
  | addExOp wid ex =>
    show (match addExerciseList wid ex (rand s.ctr) s.workouts with
      | some (_, ws') => (⟨ws', s.ctr + 1⟩ : StoreState)
      | none => s).ctr ≤ s.ctr + 1
    cases addExerciseList wid ex (rand s.ctr) s.workouts with
    | none => exact Nat.le_succ _
    | some res => obtain ⟨ed, ws'⟩ := res; exact Nat.le_refl _

/-- Helper: a run of `ops` consumes at most `ops.length` oracle draws. -/
theorem runOps_ctr_le (rand : Nat → String) (ops : List StoreOp) :
    (runOps rand ops).ctr ≤ ops.length := by
  have hgen : ∀ (l : List StoreOp) (s : StoreState),
      (l.foldl (stepOp rand) s).ctr ≤ s.ctr + l.length := by
    intro l
    induction l with
    | nil => intro s; exact Nat.le_refl _
    | cons op l ih =>
      intro s
      calc (l.foldl (stepOp rand) (stepOp rand s op)).ctr
          ≤ (stepOp rand s op).ctr + l.length := ih _
        _ ≤ (s.ctr + 1) + l.length :=
            Nat.add_le_add_right (stepOp_ctr_le rand s op) _
        _ = s.ctr + (op :: l).length := by simp [List.length_cons]; omega
  simpa using hgen ops ⟨[], 0⟩

/-- Helper: under an injective fixed-length oracle, distinct draws give
pairwise-distinct workout ids. -/
theorem pairwise_wid {rand : Nat → String} {L N ctr : Nat}
    (hinj : ∀ i, i < N → ∀ j, j < N → rand i = rand j → i = j)
    (hlen : ∀ j, j < N → (rand j).length = L)
    (hctr : ctr ≤ N) :
    ∀ {ws : List StoredWorkout} {js : List Nat},
      List.Forall₂ (widOk rand ctr) ws js → js.Pairwise (· ≠ ·) →
      List.Pairwise (· ≠ ·) (ws.map StoredWorkout.id) := by
  intro ws js hf
  induction hf with
  | nil => intro _; simp
  | @cons a b l l' hab hf ih =>
    intro hp
    obtain ⟨hbl, hpl⟩ := List.pairwise_cons.mp hp
    rw [List.map_cons, List.pairwise_cons]
    refine ⟨?_, ih hpl⟩
    intro x hx
    obtain ⟨w', hw', hxid⟩ := List.mem_map.mp hx
    obtain ⟨j', hj', hok'⟩ := forall2_mem_left hf hw'
    obtain ⟨hblt, n, hna⟩ := hab
    obtain ⟨hj'lt, n', hn'⟩ := hok'
    intro heq
    have hid : mkWorkoutId n (rand b) = mkWorkoutId n' (rand j') := by
      rw [← hna, ← hn', hxid]
      exact heq
    have hr : rand b = rand j' :=
      mkWorkoutId_suffix_inj
        (by rw [hlen b (lt_of_lt_of_le hblt hctr),
          hlen j' (lt_of_lt_of_le hj'lt hctr)]) hid
    exact hbl j' hj'
      (hinj b (lt_of_lt_of_le hblt hctr) j' (lt_of_lt_of_le hj'lt hctr) hr)

/-- Helper: under an injective fixed-length oracle, distinct draws give
pairwise-distinct exercise ids. -/
theorem pairwise_exid {rand : Nat → String} {L N ctr : Nat}
    (hinj : ∀ i, i < N → ∀ j, j < N → rand i = rand j → i = j)
    (hlen : ∀ j, j < N → (rand j).length = L)
    (hctr : ctr ≤ N) :
    ∀ {es : List StoredExercise} {ks : List Nat},
      List.Forall₂ (exIdOk rand ctr) es ks → ks.Pairwise (· ≠ ·) →
      List.Pairwise (· ≠ ·) (es.map StoredExercise.id) := by
  intro es ks hf
  induction hf with
  | nil => intro _; simp
  | @cons a b l l' hab hf ih =>
    intro hp
    obtain ⟨hbl, hpl⟩ := List.pairwise_cons.mp hp
    rw [List.map_cons, List.pairwise_cons]
    refine ⟨?_, ih hpl⟩
    intro x hx
    obtain ⟨e', he', hxid⟩ := List.mem_map.mp hx
    obtain ⟨k', hk', hok'⟩ := forall2_mem_left hf he'
    obtain ⟨hblt, n, hna⟩ := hab
    obtain ⟨hk'lt, n', hn'⟩ := hok'
    intro heq
    have hid : mkExerciseId n (rand b) = mkExerciseId n' (rand k') := by
      rw [← hna, ← hn', hxid]
      exact heq
    have hr : rand b = rand k' :=
      mkExerciseId_suffix_inj
        (by rw [hlen b (lt_of_lt_of_le hblt hctr),
          hlen k' (lt_of_lt_of_le hk'lt hctr)]) hid
    exact hbl k' hk'
      (hinj b (lt_of_lt_of_le hblt hctr) k' (lt_of_lt_of_le hk'lt hctr) hr)

/-- A constant random oracle: every `token_urlsafe` draw comes out the
same. -/
def constRand : Nat → String := fun _ => "AAAAAA"

/-- A fixed creation request body. -/
def legDay : WorkoutCreate := ⟨"Leg Day", "2024-01-01", "08:00", "09:00", none, none⟩

/-- The colliding request sequence: create, create, delete the first
workout, create again.  The last create reuses length 1 and the repeated
suffix, duplicating the surviving workout's id `1_AAAAAA`. -/
def collidingOps : List StoreOp :=
  [.createOp legDay, .createOp legDay, .deleteOp "0_AAAAAA", .createOp legDay]

/-- C9 counterexample: a reachable store state whose workout ids are not
pairwise distinct — after create, create, delete-the-first, create under a
repeating random suffix, two stored workouts share the id `1_AAAAAA`. -/
theorem store_id_uniqueness_cex :
    ¬ List.Pairwise (· ≠ ·)
      ((runOps constRand collidingOps).workouts.map StoredWorkout.id) := by
  decide

/-- C9 (amended): provided the random suffixes drawn during the run are
pairwise distinct and all of one length — `token_urlsafe(4)` always yields
6 characters but may repeat — every state reachable by create, update,
delete and add-exercise operations has pairwise-distinct workout ids and
pairwise-distinct exercise ids within each workout. -/
theorem store_id_uniqueness (rand : Nat → String) (L : Nat) (ops : List StoreOp)
    (hinj : ∀ i, i < ops.length → ∀ j, j < ops.length → rand i = rand j → i = j)
    (hlen : ∀ j, j < ops.length → (rand j).length = L) :
    List.Pairwise (· ≠ ·)
      ((runOps rand ops).workouts.map StoredWorkout.id) ∧
    ∀ w ∈ (runOps rand ops).workouts,
      List.Pairwise (· ≠ ·) (w.exercises.map StoredExercise.id) := by
  obtain ⟨⟨js, hf, hp⟩, hex⟩ := storeInv_run rand ops
  have hctr := runOps_ctr_le rand ops
  constructor
  · exact pairwise_wid hinj hlen hctr hf hp
  · intro w hw
    obtain ⟨ks, hfk, hpk⟩ := hex w hw
    exact pairwise_exid hinj hlen hctr hfk hpk

/-- A non-repeating fixed-length oracle for the uniqueness witness. -/
def distinctRand : Nat → String := fun j =>
  if j = 0 then "AAAAAA" else if j = 1 then "BBBBBB" else if j = 2 then "CCCCCC"
  else if j = 3 then "DDDDDD" else "EEEEEE"

/-- A request sequence exercising create, add-exercise, delete and create
again. -/
def mixedOps : List StoreOp :=
  [.createOp legDay, .addExOp "0_AAAAAA" ⟨"Squat", "legs"⟩, .createOp legDay,
   .deleteOp "0_AAAAAA", .createOp legDay]

/-- C9 witness: with pairwise-distinct draws of length 6, the run of
`mixedOps` ends with pairwise-distinct workout and exercise ids. -/
theorem store_id_uniqueness_witness :
    List.Pairwise (· ≠ ·)
      ((runOps distinctRand mixedOps).workouts.map StoredWorkout.id) ∧
    ∀ w ∈ (runOps distinctRand mixedOps).workouts,
      List.Pairwise (· ≠ ·) (w.exercises.map StoredExercise.id) :=
  store_id_uniqueness distinctRand 6 mixedOps (by decide) (by decide)

end PWLab
